import Mathlib

/-!
Verification of the kueue-metrics PipelineRun status exporter and the
pipelinerun metrics reconciler sketch.

The Go sources are shallowly embedded:
* `PipelineRun_exporter.go` — the pull-mode Prometheus collector:
  `getPipelineRunStatus`, `getBuildPlatformLabel`, `allPossibleStates` and
  the row-emission loop of `Collect`.
* `src/unnamed/part_000` (`pipelinerun_metrics_controller.go`) — the
  reactive-mode `Reconcile` loop; the metric-store helpers it calls
  (`cel.UpdatePipelineRunStatusMetric`, `cel.DeletePipelineRunStatusMetric`,
  `cel.DeletePipelineRunStatusMetricByNamespacedName`) live outside this
  repository and are modelled from the spec's Store contract.

Machine-level details that cannot influence the verified properties
(logging, the Prometheus channel, the Kubernetes clients) are dropped;
fallible calls become `Except` / explicit result values.
-/

namespace KueueMetrics

/-- ObjectMeta of a PipelineRun: identity plus the soft-delete marker.
`deletionTimestampSet` models `!pr.ObjectMeta.DeletionTimestamp.IsZero()`. -/
structure ObjectMeta where
  ns : String
  name : String
  deletionTimestampSet : Bool
deriving DecidableEq

/-- A knative status condition: `Type`, tri-state `Status` (the strings
"True" / "False" / "Unknown") and `Reason`. -/
structure Condition where
  type_ : String
  status : String
  reason : String
deriving DecidableEq

/-- Tekton `ParamType`. -/
inductive ParamType where
  | string
  | array
  | object
deriving DecidableEq

/-- Tekton `ParamValue`: a tagged record carrying all three payload fields,
as the Go struct does (unused payloads keep their zero value). -/
structure ParamValue where
  type_ : ParamType
  stringVal : String
  arrayVal : List String
deriving DecidableEq

/-- A string-typed `ParamValue` as Go builds it: `ArrayVal` stays nil. -/
def ParamValue.ofString (s : String) : ParamValue :=
  ⟨ParamType.string, s, []⟩

/-- An array-typed `ParamValue` as Go builds it: `StringVal` stays "". -/
def ParamValue.ofArray (vs : List String) : ParamValue :=
  ⟨ParamType.array, "", vs⟩

/-- A Tekton `Param`: name plus value. -/
structure Param where
  name : String
  value : ParamValue
deriving DecidableEq

/-- `PipelineRunSpec`: the user-facing `Status` field (the pending marker)
and the parameter list. -/
structure PipelineRunSpec where
  status : String
  params : List Param
deriving DecidableEq

/-- `PipelineRunStatus`: the condition list. -/
structure PipelineRunStatus where
  conditions : List Condition
deriving DecidableEq

/-- The PipelineRun snapshot as the exporter and the reconciler read it. -/
structure PipelineRun where
  metadata : ObjectMeta
  spec : PipelineRunSpec
  status : PipelineRunStatus
deriving DecidableEq

/-- `v1.PipelineRunSpecStatusPending`. -/
def pipelineRunSpecStatusPending : String := "PipelineRunPending"

/-- `v1.PipelineRunReasonPending` — the reason Tekton sets on a pending
run's condition; the same string as the spec-status marker. -/
def pipelineRunReasonPending : String := "PipelineRunPending"

/-- The "Succeeded" condition-type constant the exporter compares against
(`v1.PipelineRunReasonSucceeded` in the source). -/
def pipelineRunReasonSucceeded : String := "Succeeded"

/-- `pr.IsPending()` from the Tekton client library:
`pr.Spec.Status == PipelineRunSpecStatusPending`. -/
def PipelineRun.IsPending (pr : PipelineRun) : Bool :=
  decide (pr.spec.status = pipelineRunSpecStatusPending)

/-- Identity of a PipelineRun: the (namespace, name) pair. -/
abbrev Identity := String × String

/-- The (namespace, name) key of a run. -/
def PipelineRun.identity (pr : PipelineRun) : Identity :=
  (pr.metadata.ns, pr.metadata.name)

/-- `allPossibleStates` from the exporter, verbatim: the list the collector
loops over to emit the state set. Note that `v1.PipelineRunReasonPending`
is the string "PipelineRunPending", which is already listed literally. -/
def allPossibleStates : List String :=
  ["Succeeded", "Failed", "Running", "PipelineRunPending",
   "PipelineRunCancelled", pipelineRunReasonPending, "Unknown"]

/-- The loop body of `getPipelineRunStatus`: first condition whose `Type`
equals the "Succeeded" constant, scanning in source order. -/
def findSucceededCondition : List Condition → Option Condition
  | [] => none
  | c :: rest =>
      if c.type_ = pipelineRunReasonSucceeded then some c
      else findSucceededCondition rest

/-- `getPipelineRunStatus` from the exporter: when the condition list is
non-empty, return the reason of the first "Succeeded"-type condition if one
exists; otherwise fall through to the pending check, else "Unknown". -/
def getPipelineRunStatus (pr : PipelineRun) : String :=
  match (if pr.status.conditions.length > 0
         then findSucceededCondition pr.status.conditions
         else none) with
  | some c => c.reason
  | none => if pr.IsPending then pipelineRunReasonPending else "Unknown"

/-- The loop of `getBuildPlatformLabel`: first param named
"build-platforms" yields `strings.Join(ArrayVal, ",")`, else "". -/
def buildPlatformOfParams : List Param → String
  | [] => ""
  | p :: rest =>
      if p.name = "build-platforms" then String.intercalate "," p.value.arrayVal
      else buildPlatformOfParams rest

/-- `getBuildPlatformLabel` from the exporter. -/
def getBuildPlatformLabel (pr : PipelineRun) : String :=
  buildPlatformOfParams pr.spec.params

/-- The classifier of the spec's §4.1 contract, as the collector computes
it: the status label paired with the build-platform label. -/
def classify (pr : PipelineRun) : String × String :=
  (getPipelineRunStatus pr, getBuildPlatformLabel pr)

/-- One emitted metric sample: the four label values and the 0/1 gauge. -/
structure MetricRow where
  ns : String
  name : String
  state : String
  buildPlatform : String
  value : Nat
deriving DecidableEq

/-- The inner loop of `Collect` for one run: one row per entry of
`allPossibleStates`, value 1 exactly on the entries equal to the computed
status. -/
def entityRows (pr : PipelineRun) : List MetricRow :=
  allPossibleStates.map fun state =>
    ⟨pr.metadata.ns, pr.metadata.name, state, getBuildPlatformLabel pr,
      if state = getPipelineRunStatus pr then 1 else 0⟩

/-- The row set `Collect` emits for a successful listing. -/
def collectRows (items : List PipelineRun) : List MetricRow :=
  items.flatMap entityRows

/-- `Collect`: on a listing error it logs and returns without sending any
metric (the scrape itself still succeeds); on success it emits the state-set
rows for every listed run. -/
def Collect (listResult : Except String (List PipelineRun)) : List MetricRow :=
  match listResult with
  | Except.error _ => []
  | Except.ok items => collectRows items

/-! ## Spec-side classifier definitions

For the refinement-style claims, a second definition follows the spec's
wording so that the code's behaviour can be compared against it. -/

/-- The classifier step 1 as the spec words it for claim C1: the reason of a
completion-type condition counts only when that condition carries a definite
outcome (tri-state "True" or "False"); otherwise the pending indicator,
otherwise "Unknown". -/
def specDefiniteOutcomeStatus (pr : PipelineRun) : String :=
  match pr.status.conditions.find?
      (fun c => decide (c.type_ = pipelineRunReasonSucceeded) &&
        (decide (c.status = "True") || decide (c.status = "False"))) with
  | some c => c.reason
  | none => if pr.IsPending then pipelineRunReasonPending else "Unknown"

/-- The amended classifier wording: the reason of the first completion-type
condition counts whenever such a condition is present, regardless of its
outcome; otherwise the pending indicator, otherwise "Unknown". -/
def specFirstSucceededStatus (pr : PipelineRun) : String :=
  match pr.status.conditions.find?
      (fun c => decide (c.type_ = pipelineRunReasonSucceeded)) with
  | some c => c.reason
  | none => if pr.IsPending then pipelineRunReasonPending else "Unknown"

/-- A run whose sole condition is Succeeded-type with tri-state "Unknown"
(a run in flight): no definite outcome is reported and the run is not
pending. -/
def prBuildRunning : PipelineRun :=
  ⟨⟨"konflux", "build-1", false⟩, ⟨"", []⟩,
    ⟨[⟨"Succeeded", "Unknown", "Running"⟩]⟩⟩

/-- Claim C1, counterexample: on a snapshot whose only completion-type
condition has the indefinite outcome "Unknown" and whose pending indicator
is unset, the code returns that condition's reason ("Running") while the
claimed classifier would return "Unknown" — the reason is returned even
though no definite outcome is present. -/
theorem status_reason_without_definite_outcome :
    getPipelineRunStatus prBuildRunning = "Running" ∧
    specDefiniteOutcomeStatus prBuildRunning = "Unknown" ∧
    getPipelineRunStatus prBuildRunning ≠ specDefiniteOutcomeStatus prBuildRunning ∧
    prBuildRunning.IsPending = false ∧
    prBuildRunning.status.conditions = [⟨"Succeeded", "Unknown", "Running"⟩] := by
  decide

theorem findSucceededCondition_eq_find? (l : List Condition) :
    findSucceededCondition l
      = l.find? (fun c => decide (c.type_ = pipelineRunReasonSucceeded)) := by
  induction l with
  | nil => rfl
  | cons c rest ih =>
      by_cases h : c.type_ = pipelineRunReasonSucceeded
      · simp [findSucceededCondition, List.find?_cons, h]
      · simp [findSucceededCondition, List.find?_cons, h, ih]

/-- Claim C1, amended: for every snapshot the code returns the reason of the
first completion-type ("Succeeded"-type) condition whenever one is present,
regardless of whether its outcome is definite; otherwise the pending marker
yields "PipelineRunPending"; otherwise "Unknown" — first match wins. -/
theorem getPipelineRunStatus_first_succeeded (pr : PipelineRun) :
    getPipelineRunStatus pr = specFirstSucceededStatus pr := by
  unfold getPipelineRunStatus specFirstSucceededStatus
  cases h : pr.status.conditions with
  | nil => simp [h]
  | cons c rest => simp [h, findSucceededCondition_eq_find?]

/-- A pending run: no conditions yet, spec status marker set. -/
def prPendingExample : PipelineRun :=
  ⟨⟨"konflux", "pending-1", false⟩, ⟨pipelineRunSpecStatusPending, []⟩, ⟨[]⟩⟩

/-- A timed-out run: its completion condition reports the reason
"PipelineRunTimeout", a reason absent from `allPossibleStates`. -/
def prTimeoutExample : PipelineRun :=
  ⟨⟨"konflux", "timeout-1", false⟩, ⟨"", []⟩,
    ⟨[⟨"Succeeded", "False", "PipelineRunTimeout"⟩]⟩⟩

/-- A succeeded run, for contrast: exactly one active row. -/
def prSucceededExample : PipelineRun :=
  ⟨⟨"konflux", "ok-1", false⟩, ⟨"", []⟩,
    ⟨[⟨"Succeeded", "True", "Succeeded"⟩]⟩⟩

/-- Claim C2: the rendered state set is NOT always exactly-one-active.
`allPossibleStates` lists "PipelineRunPending" twice (once literally, once
via `v1.PipelineRunReasonPending`, the same string), so a pending run gets
two value-1 rows; and a status outside the list (here the documented reason
"PipelineRunTimeout") gets zero value-1 rows. A status listed once (e.g.
"Succeeded") does get exactly one. -/
theorem stateSet_active_row_count_bug :
    ((Collect (Except.ok [prPendingExample])).filter
        (fun r => decide (r.value = 1))).length = 2 ∧
    ((Collect (Except.ok [prTimeoutExample])).filter
        (fun r => decide (r.value = 1))).length = 0 ∧
    ((Collect (Except.ok [prSucceededExample])).filter
        (fun r => decide (r.value = 1))).length = 1 ∧
    getPipelineRunStatus prPendingExample = pipelineRunReasonPending ∧
    getPipelineRunStatus prTimeoutExample = "PipelineRunTimeout" ∧
    allPossibleStates.count pipelineRunReasonPending = 2 := by
  decide

/-- Claim C3: when the listing fails, `Collect` emits no samples and
signals nothing — its output is identical to that of a successful scrape
over an empty cluster, so the caller cannot distinguish the failure. -/
theorem collect_list_error_silent_empty :
    Collect (Except.error "connection refused") = [] ∧
    Collect (Except.error "connection refused") = Collect (Except.ok []) := by
  decide

theorem entityRows_any_id (pr : PipelineRun) (ns n : String) :
    ((entityRows pr).any fun r => r.ns == ns && r.name == n)
      = (pr.metadata.ns == ns && pr.metadata.name == n) := by
  cases h : (pr.metadata.ns == ns && pr.metadata.name == n) <;>
    simp_all [entityRows, allPossibleStates, List.any]

/-- Claim C4: in pull mode a scrape's rows are a function of the current
listing alone (the collector keeps no per-scrape state), and an identity
occurs among the emitted rows exactly when a run with that identity occurs
in the current listing — rows from a prior scrape cannot reappear. -/
theorem collect_rows_iff_listed (items : List PipelineRun) (ns n : String) :
    ((Collect (Except.ok items)).any fun r => r.ns == ns && r.name == n)
      = (items.any fun pr => pr.metadata.ns == ns && pr.metadata.name == n) := by
  induction items with
  | nil => rfl
  | cons pr rest ih =>
      show ((entityRows pr ++ rest.flatMap entityRows).any _) = _
      rw [List.any_append]
      rw [show (rest.flatMap entityRows) = Collect (Except.ok rest) from rfl]
      rw [ih, entityRows_any_id]
      simp [List.any_cons]

/-! ## Reactive mode: the metric store and the reconciler -/

/-- One stored metric record: the active status label and the auxiliary
build-platform label for an identity. -/
structure MetricRecord where
  status : String
  buildPlatform : String
deriving DecidableEq

/-- Modelled from the spec: the Metric State Store of the §4.2 contract —
at most one record per identity, keyed by (namespace, name). The concrete
store (the Prometheus gauge vector in the external `cel` package) is not
part of this repository's files. -/
abbrev Store := List (Identity × MetricRecord)

/-- Modelled from the spec: `remove(identity)` — deletes the record if
present; removal of an absent identity is a no-op, not an error. This is
what `cel.DeletePipelineRunStatusMetric` and
`cel.DeletePipelineRunStatusMetricByNamespacedName` perform. -/
def removeRecord (s : Store) (id : Identity) : Store :=
  s.filter fun e => decide (e.1 ≠ id)

/-- Modelled from the spec: `upsert(identity, record)` — replaces any prior
record for the identity. -/
def upsertRecord (s : Store) (id : Identity) (r : MetricRecord) : Store :=
  (id, r) :: removeRecord s id

/-- Modelled from the spec: the Store read-back — the record held for an
identity, if any. -/
def lookupRecord (s : Store) (id : Identity) : Option MetricRecord :=
  (s.find? fun e => decide (e.1 = id)).map Prod.snd

/-- Modelled from the spec: `cel.UpdatePipelineRunStatusMetric` — run the
classifier on the snapshot and store its output as the identity's record. -/
def classifyRecord (pr : PipelineRun) : MetricRecord :=
  ⟨getPipelineRunStatus pr, getBuildPlatformLabel pr⟩

/-- The result of the Get call in `Reconcile`: the object, a NotFound
error, or any other (transient) error. -/
inductive GetResult where
  | notFound
  | transient (msg : String)
  | ok (pr : PipelineRun)

/-- What one reconciliation returns: the Store afterwards and the error
handed back to controller-runtime for requeue (`none` = success). -/
structure ReconcileOutcome where
  store : Store
  err : Option String
deriving DecidableEq

/-- `Reconcile` from the metrics controller: on NotFound, delete the metric
by the request's namespaced name and succeed; on any other Get error,
return the error for requeue; on a fetched object with a non-zero deletion
timestamp, delete its metric and succeed; otherwise classify and upsert. -/
def Reconcile (store : Store) (req : Identity) (res : GetResult) :
    ReconcileOutcome :=
  match res with
  | GetResult.notFound => ⟨removeRecord store req, none⟩
  | GetResult.transient msg => ⟨store, some msg⟩
  | GetResult.ok pr =>
      if pr.metadata.deletionTimestampSet then
        ⟨removeRecord store pr.identity, none⟩
      else
        ⟨upsertRecord store pr.identity (classifyRecord pr), none⟩

theorem lookupRecord_remove (s : Store) (id : Identity) :
    lookupRecord (removeRecord s id) id = none := by
  induction s with
  | nil => rfl
  | cons e rest ih =>
      by_cases h : e.1 = id
      · have step : removeRecord (e :: rest) id = removeRecord rest id := by
          simp [removeRecord, List.filter_cons, h]
        rw [step]
        exact ih
      · have step : removeRecord (e :: rest) id = e :: removeRecord rest id := by
          simp [removeRecord, List.filter_cons, h]
        have drop : lookupRecord (e :: removeRecord rest id) id
            = lookupRecord (removeRecord rest id) id := by
          simp [lookupRecord, List.find?_cons, h]
        rw [step, drop]
        exact ih

theorem removeRecord_idem (s : Store) (id : Identity) :
    removeRecord (removeRecord s id) id = removeRecord s id := by
  induction s with
  | nil => rfl
  | cons e rest ih =>
      by_cases h : e.1 = id
      · have step : removeRecord (e :: rest) id = removeRecord rest id := by
          simp [removeRecord, List.filter_cons, h]
        rw [step, ih]
      · have step : removeRecord (e :: rest) id = e :: removeRecord rest id := by
          simp [removeRecord, List.filter_cons, h]
        have step2 : removeRecord (e :: removeRecord rest id) id
            = e :: removeRecord (removeRecord rest id) id := by
          simp [removeRecord, List.filter_cons, h]
        rw [step, step2, ih]

theorem removeRecord_absent (s : Store) (id : Identity)
    (h : lookupRecord s id = none) : removeRecord s id = s := by
  induction s with
  | nil => rfl
  | cons e rest ih =>
      by_cases he : e.1 = id
      · exfalso
        simp [lookupRecord, List.find?_cons, he] at h
      · have hrest : lookupRecord rest id = none := by
          simpa [lookupRecord, List.find?_cons, he] using h
        have step : removeRecord (e :: rest) id = e :: removeRecord rest id := by
          simp [removeRecord, List.filter_cons, he]
        rw [step, ih hrest]

/-- Claim C5: observing a run whose deletion timestamp is set removes its
record and performs no classification or upsert, whatever its conditions
and parameters say; immediately afterwards the Store holds no record for
that identity and no error is reported. -/
theorem reconcile_soft_delete_removes (store : Store) (pr : PipelineRun)
    (h : pr.metadata.deletionTimestampSet = true) :
    Reconcile store pr.identity (GetResult.ok pr)
        = ⟨removeRecord store pr.identity, none⟩ ∧
    lookupRecord (Reconcile store pr.identity (GetResult.ok pr)).store
        pr.identity = none := by
  constructor
  · simp [Reconcile, h]
  · simp [Reconcile, h, lookupRecord_remove]

/-- A store holding run "c" as Running, for the concrete witnesses. -/
def storeWithC : Store := [(("tenant", "c"), ⟨"Running", ""⟩)]

/-- Run "c" observed with its deletion timestamp set, still reporting the
Running condition. -/
def prCDeleting : PipelineRun :=
  ⟨⟨"tenant", "c", true⟩, ⟨"", []⟩, ⟨[⟨"Succeeded", "Unknown", "Running"⟩]⟩⟩

theorem reconcile_soft_delete_removes_witness :
    prCDeleting.metadata.deletionTimestampSet = true ∧
    (Reconcile storeWithC prCDeleting.identity (GetResult.ok prCDeleting)
        = ⟨removeRecord storeWithC prCDeleting.identity, none⟩ ∧
      lookupRecord
        (Reconcile storeWithC prCDeleting.identity
          (GetResult.ok prCDeleting)).store prCDeleting.identity = none) :=
  ⟨by decide, reconcile_soft_delete_removes storeWithC prCDeleting (by decide)⟩

/-- Claim C6: the two deletion signals are idempotent — processing NotFound
twice, or a soft-delete twice, leaves the Store exactly as processing it
once — and a NotFound signal for an identity with no record returns the
Store unchanged with no error (no record is created). -/
theorem reconcile_delete_idempotent (store : Store) (id : Identity)
    (pr : PipelineRun) (hdts : pr.metadata.deletionTimestampSet = true) :
    (Reconcile (Reconcile store id GetResult.notFound).store id
        GetResult.notFound).store
      = (Reconcile store id GetResult.notFound).store ∧
    (Reconcile (Reconcile store pr.identity (GetResult.ok pr)).store
        pr.identity (GetResult.ok pr)).store
      = (Reconcile store pr.identity (GetResult.ok pr)).store ∧
    (lookupRecord store id = none →
      Reconcile store id GetResult.notFound = ⟨store, none⟩) := by
  refine ⟨?_, ?_, ?_⟩
  · simpa [Reconcile] using removeRecord_idem store id
  · simp [Reconcile, hdts, removeRecord_idem]
  · intro habs
    simp [Reconcile, removeRecord_absent store id habs]

/-- Identity "d" was never observed: `storeWithC` holds no record for it. -/
theorem reconcile_delete_idempotent_witness :
    prCDeleting.metadata.deletionTimestampSet = true ∧
    lookupRecord storeWithC ("tenant", "d") = none ∧
    ((Reconcile (Reconcile storeWithC ("tenant", "d")
          GetResult.notFound).store ("tenant", "d") GetResult.notFound).store
        = (Reconcile storeWithC ("tenant", "d") GetResult.notFound).store ∧
      (Reconcile (Reconcile storeWithC prCDeleting.identity
            (GetResult.ok prCDeleting)).store prCDeleting.identity
          (GetResult.ok prCDeleting)).store
        = (Reconcile storeWithC prCDeleting.identity
            (GetResult.ok prCDeleting)).store ∧
      Reconcile storeWithC ("tenant", "d") GetResult.notFound
        = ⟨storeWithC, none⟩) :=
  ⟨by decide, by decide,
    (reconcile_delete_idempotent storeWithC ("tenant", "d") prCDeleting
        (by decide)).1,
    (reconcile_delete_idempotent storeWithC ("tenant", "d") prCDeleting
        (by decide)).2.1,
    (reconcile_delete_idempotent storeWithC ("tenant", "d") prCDeleting
        (by decide)).2.2 (by decide)⟩

/-- Claim C7: a transient Get error returns that error for requeue and the
Store is handed back exactly as it was — nothing is removed, upserted or
altered. -/
theorem reconcile_transient_error_frame (store : Store) (id : Identity)
    (msg : String) :
    (Reconcile store id (GetResult.transient msg)).store = store ∧
    (Reconcile store id (GetResult.transient msg)).err = some msg :=
  ⟨rfl, rfl⟩

/-! ## The auxiliary build-platform label -/

/-- The first param named "build-platforms", in declaration order. -/
def firstBuildPlatformsParam (pr : PipelineRun) : Option Param :=
  pr.spec.params.find? fun p => decide (p.name = "build-platforms")

/-- Follows the spec wording for the auxiliary label (claims C8 and C10):
the designated platform parameter's array values joined with "," in their
original order when the parameter is present, the empty string when it is
absent. -/
def specBuildPlatformLabel (pr : PipelineRun) : String :=
  match firstBuildPlatformsParam pr with
  | some p => String.intercalate "," p.value.arrayVal
  | none => ""

theorem buildPlatformOfParams_eq_find? (l : List Param) :
    buildPlatformOfParams l
      = (match l.find? (fun p => decide (p.name = "build-platforms")) with
         | some p => String.intercalate "," p.value.arrayVal
         | none => "") := by
  induction l with
  | nil => rfl
  | cons p rest ih =>
      by_cases h : p.name = "build-platforms"
      · simp [buildPlatformOfParams, List.find?_cons, h]
      · simp [buildPlatformOfParams, List.find?_cons, h, ih]

/-- Claim C8: the build-platform label is the platform parameter's values
joined with "," in their original order when the parameter is present, and
the empty string when it is absent; and every emitted row for the entity
carries that label (it is never omitted). -/
theorem getBuildPlatformLabel_spec (pr : PipelineRun) :
    getBuildPlatformLabel pr = specBuildPlatformLabel pr ∧
    ((entityRows pr).all fun r => r.buildPlatform == getBuildPlatformLabel pr)
      = true := by
  constructor
  · show buildPlatformOfParams pr.spec.params = specBuildPlatformLabel pr
    rw [buildPlatformOfParams_eq_find?]
    rfl
  · simp [entityRows, allPossibleStates]

/-- Claim C9: `classify` is total — it returns the status/aux label pair on
every snapshot, and on the degenerate ones (empty condition list, unset
pending marker, empty parameter list) it still yields the labels "Unknown"
and "". -/
theorem classify_total (pr : PipelineRun) :
    classify pr = (getPipelineRunStatus pr, getBuildPlatformLabel pr) ∧
    (pr.status.conditions = [] → pr.IsPending = false →
      (classify pr).1 = "Unknown") ∧
    (pr.spec.params = [] → (classify pr).2 = "") := by
  refine ⟨rfl, ?_, ?_⟩
  · intro hc hp
    simp [classify, getPipelineRunStatus, hc, hp]
  · intro hp
    simp [classify, getBuildPlatformLabel, hp, buildPlatformOfParams]

/-- A freshly admitted run: no conditions, not pending, no params. -/
def prEmptySnapshot : PipelineRun := ⟨⟨"ns1", "fresh", false⟩, ⟨"", []⟩, ⟨[]⟩⟩

theorem classify_total_witness :
    prEmptySnapshot.status.conditions = [] ∧
    prEmptySnapshot.IsPending = false ∧
    prEmptySnapshot.spec.params = [] ∧
    (classify prEmptySnapshot).1 = "Unknown" ∧
    (classify prEmptySnapshot).2 = "" :=
  ⟨rfl, by decide, rfl,
    (classify_total prEmptySnapshot).2.1 rfl (by decide),
    (classify_total prEmptySnapshot).2.2 rfl⟩

/-- Claim C10: a "build-platforms" parameter carrying a single string value
(whose Go `ArrayVal` is nil) yields the empty build-platform label — only
the array representation is joined — so a string-valued parameter cannot be
told apart from an absent one at the exposition layer. -/
theorem string_valued_platform_param_empty (pr : PipelineRun) (s : String)
    (h : firstBuildPlatformsParam pr
        = some ⟨"build-platforms", ParamValue.ofString s⟩) :
    getBuildPlatformLabel pr = "" ∧
    getBuildPlatformLabel pr = buildPlatformOfParams [] := by
  have base : getBuildPlatformLabel pr = "" := by
    show buildPlatformOfParams pr.spec.params = ""
    rw [buildPlatformOfParams_eq_find?]
    have hfind : pr.spec.params.find?
        (fun p => decide (p.name = "build-platforms"))
        = some ⟨"build-platforms", ParamValue.ofString s⟩ := h
    rw [hfind]
    rfl
  exact ⟨base, base⟩

/-- A run whose platform parameter is string-typed. -/
def prStringPlatform : PipelineRun :=
  ⟨⟨"konflux", "single", false⟩,
    ⟨"", [⟨"build-platforms", ParamValue.ofString "linux/amd64"⟩]⟩, ⟨[]⟩⟩

theorem string_valued_platform_param_empty_witness :
    firstBuildPlatformsParam prStringPlatform
        = some ⟨"build-platforms", ParamValue.ofString "linux/amd64"⟩ ∧
    (getBuildPlatformLabel prStringPlatform = "" ∧
      getBuildPlatformLabel prStringPlatform = buildPlatformOfParams []) :=
  ⟨by decide,
    string_valued_platform_param_empty prStringPlatform "linux/amd64"
      (by decide)⟩

end KueueMetrics
